import Mathlib

/-!
Shallow embedding of the OCRE common event-dispatch and module-lifecycle core
(`src/ocre_common_optimized.c` / `src/ocre_common_optimized.h`).

Machine integers (`uint32_t`) are modelled as `Nat` with explicit reduction
modulo `2^32` where overflow matters.  Pointers are modelled as `Nat` handles
with `0` standing for `NULL`.  External collaborators (the WASM runtime, the
allocator, the clock, thread creation) are passed in as explicit oracles.
Negative errno returns are modelled as `Int` values.
-/

/- errno codes used by the source (Zephyr errno values, returned negated). -/
def EINVAL : Int := 22
def ENODEV : Int := 19
def ENOMEM : Int := 12
def ENOENT : Int := 2
def EFAULT : Int := 14

/- Configuration constants from the source. -/
def EVENT_BUFFER_SIZE : Nat := 1024
def EVENT_BATCH_SIZE : Nat := 16
def MAX_DISPATCH_RETRIES : Nat := 3
def OCRE_RESOURCE_TYPE_COUNT : Nat := 3
def UINT32_MOD : Nat := 4294967296

/-- Size in bytes of one `wasm_event_t` record (four `uint32_t` fields). -/
def EVENT_SIZE : Nat := 16

/-- Model of `wasm_event_t`: the flat fixed-size record held in the ring
buffer.  `etype` models the `type` field. -/
structure WasmEvent where
  etype : Nat
  id : Nat
  port : Nat
  state : Nat
deriving DecidableEq, Repr

/-- Model of `ocre_event_t`: the producer-side event with a type tag and a
per-type payload; the union members are flattened into named fields (only the
fields selected by `etype` are read by `ocre_post_event`). -/
structure OcreEvent where
  etype : Nat
  timer_id : Nat
  pin_id : Nat
  gpio_state : Nat
  sensor_id : Nat
  channel : Nat
  value : Nat
deriving DecidableEq, Repr

/-- Model of `ocre_module_context_t`.  `inst` and `exec_env` are opaque
handles (`0` = `NULL`); `resource_count` and `dispatchers` are the two
fixed-size (length-3) per-resource-type vectors, `0` meaning an unbound
dispatcher. -/
structure ModuleContext where
  inst : Nat
  exec_env : Nat
  in_use : Bool
  last_activity : Nat
  resource_count : List Nat
  dispatchers : List Nat
deriving DecidableEq, Repr

/-- The process-wide mutable state of the core: `common_initialized`,
`event_system_running`, the module registry (a singly linked list, append at
tail), the event ring buffer (a FIFO of whole records), the cleanup-handler
table (length-3, `0` = unset), the event semaphore count and the number of
created worker threads. -/
structure CoreState where
  initialized : Bool
  running : Bool
  registry : List ModuleContext
  queue : List WasmEvent
  handlers : List Nat
  sem : Nat
  threads : Nat
deriving DecidableEq, Repr

/-- Helper: is_valid_event_type from the source (`type < OCRE_RESOURCE_TYPE_COUNT`). -/
def is_valid_event_type (ty : Nat) : Bool := ty < OCRE_RESOURCE_TYPE_COUNT

/-- Helper: free bytes in the ring buffer (`ring_buf_space_get`); the ring
holds only whole 16-byte records, so free space is the capacity minus 16 bytes
per queued record. -/
def ring_buf_space (queue : List WasmEvent) : Nat :=
  EVENT_BUFFER_SIZE - EVENT_SIZE * queue.length

/-- Model of `find_module_node`: linear scan of the registry, first node whose
`inst` equals the sought handle. -/
def find_module_node (registry : List ModuleContext) (h : Nat) : Option ModuleContext :=
  registry.find? (fun n => n.inst == h)

/-- In-place mutation of the node returned by `find_module_node`: replace the
first registry node with the given handle. -/
def updateModule (registry : List ModuleContext) (h : Nat) (f : ModuleContext → ModuleContext) :
    List ModuleContext :=
  match registry with
  | [] => []
  | n :: rest => if n.inst = h then f n :: rest else n :: updateModule rest h f

/-- Removal of the found node from the singly linked registry
(`sys_slist_remove` of the first node with the given handle). -/
def removeFirstModule (registry : List ModuleContext) (h : Nat) : List ModuleContext :=
  match registry with
  | [] => []
  | n :: rest => if n.inst = h then rest else n :: removeFirstModule rest h

/-- Model of `ocre_get_current_module`: dereference the thread-local
current-module pointer, `NULL` (here `0`) when the pointer is unset. -/
def ocre_get_current_module (tls : Option Nat) : Nat :=
  match tls with
  | some h => h
  | none => 0

/-- Actions observable in a worker's interaction with the guest runtime and
the kernel, used to state dispatch-protocol claims.  `callFn` records the
value `ocre_get_current_module` would return during the guest call, the
invoked function handle and the marshalled arguments. -/
inductive DAct where
  | callFn (tlsSeen : Nat) (fn : Nat) (args : List Nat)
  | getExc
  | clearExc
  | sleepMs (ms : Nat)
  | dropNoTarget
  | dropNoDispatcher
deriving DecidableEq, Repr

/-- Number of guest invocations in a trace. -/
def countCalls (tr : List DAct) : Nat :=
  tr.countP (fun a => match a with | DAct.callFn _ _ _ => true | _ => false)

/-- Number of exception clears in a trace. -/
def countClears (tr : List DAct) : Nat :=
  tr.countP (fun a => match a with | DAct.clearExc => true | _ => false)

/-- Number of sleeps in a trace. -/
def countSleeps (tr : List DAct) : Nat :=
  tr.countP (fun a => match a with | DAct.sleepMs _ => true | _ => false)

/-- The retry loop of `process_single_event`: `while (!result && retry_count <
MAX_DISPATCH_RETRIES)`.  `outcomes k` is the oracle for the success of the
`wasm_runtime_call_wasm` invocation made with `retry_count = k`; on failure
the worker fetches the exception, clears it and sleeps 1 ms before retrying.
`fuel` is `MAX_DISPATCH_RETRIES - retry_count`. -/
def retry_loop (outcomes : Nat → Bool) (curMod fn : Nat) (args : List Nat) :
    Nat → Nat → Bool × List DAct
  | 0, _ => (false, [])
  | fuel + 1, k =>
    if outcomes k then
      (true, [DAct.callFn curMod fn args])
    else
      let rest := retry_loop outcomes curMod fn args fuel (k + 1)
      (rest.1, DAct.callFn curMod fn args :: DAct.getExc :: DAct.clearExc ::
               DAct.sleepMs 1 :: rest.2)

/-- Model of `process_single_event`.  Inputs: the event and registry node (as
`Option` to model the `NULL` checks), the guest-call outcome oracle, the value
`k_uptime_get_32()` would return on success, and the worker's thread-local
current-module slot.  Output: the `int` result, the (possibly updated) node,
the final thread-local slot and the action trace. -/
def process_single_event (ev? : Option WasmEvent) (node? : Option ModuleContext)
    (outcomes : Nat → Bool) (now : Nat) (tls : Option Nat) :
    Int × Option ModuleContext × Option Nat × List DAct :=
  match ev?, node? with
  | none, n => (-EINVAL, n, tls, [])
  | some _, none => (-EINVAL, none, tls, [])
  | some ev, some node =>
    if ¬ is_valid_event_type ev.etype then (-EINVAL, some node, tls, [])
    else
      let dispatcher := node.dispatchers.getD ev.etype 0
      if dispatcher = 0 then (-ENOENT, some node, tls, [])
      else if node.exec_env = 0 then (-EINVAL, some node, tls, [])
      else
        let args : List Nat :=
          if ev.etype = 0 then [ev.id]
          else if ev.etype = 1 then [ev.id, ev.state]
          else [ev.id, ev.port, ev.state]
        let tls1 : Option Nat := some node.inst
        let r := retry_loop outcomes (ocre_get_current_module tls1) dispatcher args
                   MAX_DISPATCH_RETRIES 0
        if r.1 then
          (0, some { node with last_activity := now }, none, r.2)
        else
          (-EFAULT, some node, none, r.2)

/-- One event of the per-batch loop of `event_processor_thread`: the target is
looked up from the dereferenced thread-local current-module pointer (`NULL`
when unset); a missing target drops the event, otherwise
`process_single_event` runs and its node update is written back to the
registry. -/
def worker_handle_event (s : CoreState) (tls : Option Nat) (ev : WasmEvent)
    (outcomes : Nat → Bool) (now : Nat) : CoreState × Option Nat × List DAct :=
  let targetHandle := ocre_get_current_module tls
  match find_module_node s.registry targetHandle with
  | none => (s, tls, [DAct.dropNoTarget])
  | some node =>
    let r := process_single_event (some ev) (some node) outcomes now tls
    let s' :=
      match r.2.1 with
      | some n' => { s with registry := updateModule s.registry node.inst (fun _ => n') }
      | none => s
    (s', r.2.2.1, r.2.2.2)

/-- The per-batch loop of `event_processor_thread` over a drained batch;
`outs i` is the outcome oracle for the i-th event of the batch. -/
def worker_run_batch (outs : Nat → Nat → Bool) (now : Nat) :
    List WasmEvent → Nat → CoreState → Option Nat → CoreState × Option Nat × List DAct
  | [], _, s, tls => (s, tls, [])
  | ev :: rest, i, s, tls =>
    let r1 := worker_handle_event s tls ev (outs i) now
    let r2 := worker_run_batch outs now rest (i + 1) r1.1 r1.2.1
    (r2.1, r2.2.1, r1.2.2 ++ r2.2.2)

/-- One iteration of the worker loop: after taking the semaphore, drain up to
`EVENT_BATCH_SIZE` whole records under the queue mutex and process them.  The
thread-local current-module slot starts as given (`none` for a fresh worker
thread). -/
def worker_iteration (s : CoreState) (tls : Option Nat) (outs : Nat → Nat → Bool)
    (now : Nat) : CoreState × Option Nat × List DAct :=
  let batch := s.queue.take EVENT_BATCH_SIZE
  let s1 := { s with queue := s.queue.drop EVENT_BATCH_SIZE, sem := s.sem - 1 }
  worker_run_batch outs now batch 0 s1 tls

/-- Model of `ocre_cleanup_module_resources`: iterate all resource types and
invoke each non-null cleanup handler with the module handle.  The result is
the invocation trace, a list of (resource type, handler, module handle). -/
def ocre_cleanup_module_resources (s : CoreState) (h : Nat) : List (Nat × Nat × Nat) :=
  if h = 0 then []
  else (List.range OCRE_RESOURCE_TYPE_COUNT).filterMap (fun i =>
    let f := s.handlers.getD i 0
    if f ≠ 0 then some (i, f, h) else none)

/-- Model of `ocre_register_cleanup_handler`: validate and store (replacing
any previous entry for the type). -/
def ocre_register_cleanup_handler (s : CoreState) (ty handler : Nat) : Int × CoreState :=
  if ¬ is_valid_event_type ty ∨ handler = 0 then (-EINVAL, s)
  else (0, { s with handlers := s.handlers.set ty handler })

/-- Model of `ocre_register_module`.  External oracles: `allocOk` is the
success of `k_malloc`, `newEnv` the handle returned by
`wasm_runtime_create_exec_env` (`0` = failure), `now` the value of
`k_uptime_get_32()`. -/
def ocre_register_module (s : CoreState) (h : Nat) (allocOk : Bool) (newEnv now : Nat) :
    Int × CoreState :=
  if h = 0 then (-EINVAL, s)
  else if ¬ s.initialized then (-ENODEV, s)
  else if ¬ allocOk then (-ENOMEM, s)
  else if newEnv = 0 then (-ENOMEM, s)
  else
    let ctx : ModuleContext :=
      { inst := h, exec_env := newEnv, in_use := true, last_activity := now,
        resource_count := [0, 0, 0], dispatchers := [0, 0, 0] }
    (0, { s with registry := s.registry ++ [ctx] })

/-- Model of `ocre_unregister_module`: find the node; if present, run the
cleanup handlers, destroy the exec env and remove the node; otherwise warn and
leave the state unchanged.  (Handler invocations are observable through
`ocre_cleanup_module_resources`; they do not mutate the modelled state.) -/
def ocre_unregister_module (s : CoreState) (h : Nat) : CoreState :=
  if h = 0 then s
  else
    match find_module_node s.registry h with
    | some _ => { s with registry := removeFirstModule s.registry h }
    | none => s

/-- Model of `ocre_get_module_context`: find the node, refresh its
`last_activity` with the current uptime and return the (refreshed) context. -/
def ocre_get_module_context (s : CoreState) (h : Nat) (now : Nat) :
    Option ModuleContext × CoreState :=
  if h = 0 then (none, s)
  else
    match find_module_node s.registry h with
    | some n =>
      (some { n with last_activity := now },
       { s with registry := updateModule s.registry h (fun m => { m with last_activity := now }) })
    | none => (none, s)

/-- Model of `ocre_get_resource_count` (reads through
`ocre_get_module_context`, which refreshes `last_activity`). -/
def ocre_get_resource_count (s : CoreState) (h ty : Nat) (now : Nat) : Nat × CoreState :=
  if h = 0 ∨ ¬ is_valid_event_type ty then (0, s)
  else
    let r := ocre_get_module_context s h now
    match r.1 with
    | some ctx => (ctx.resource_count.getD ty 0, r.2)
    | none => (0, r.2)

/-- Model of `ocre_increment_resource_count`: `resource_count[type]++` on a
`uint32_t` (wraps modulo `2^32`); a no-op for a null handle, invalid type or
unregistered module. -/
def ocre_increment_resource_count (s : CoreState) (h ty : Nat) : CoreState :=
  if h = 0 ∨ ¬ is_valid_event_type ty then s
  else
    match find_module_node s.registry h with
    | some _ =>
      { s with registry := updateModule s.registry h (fun n =>
          { n with resource_count :=
              n.resource_count.set ty ((n.resource_count.getD ty 0 + 1) % UINT32_MOD) }) }
    | none => s

/-- Model of `ocre_decrement_resource_count`: decrement only when the counter
is positive (saturation at zero). -/
def ocre_decrement_resource_count (s : CoreState) (h ty : Nat) : CoreState :=
  if h = 0 ∨ ¬ is_valid_event_type ty then s
  else
    match find_module_node s.registry h with
    | some _ =>
      { s with registry := updateModule s.registry h (fun n =>
          if n.resource_count.getD ty 0 > 0 then
            { n with resource_count :=
                n.resource_count.set ty (n.resource_count.getD ty 0 - 1) }
          else n) }
    | none => s

/-- Model of `ocre_register_dispatcher`.  Oracles: `instOfEnv` is
`wasm_runtime_get_module_inst`, `resolve` is `wasm_runtime_lookup_function`
(`0` = not found), `now` the uptime used by the `ocre_get_module_context`
refresh on the success path. -/
def ocre_register_dispatcher (s : CoreState) (env : Nat) (instOfEnv : Nat → Nat)
    (ty : Nat) (fname : Option String) (resolve : String → Nat) (now : Nat) :
    Int × CoreState :=
  match fname with
  | none => (-EINVAL, s)
  | some nm =>
    if env = 0 ∨ ¬ is_valid_event_type ty then (-EINVAL, s)
    else
      let mi := instOfEnv env
      if mi = 0 then (-EINVAL, s)
      else
        let fn := resolve nm
        if fn = 0 then (-ENOENT, s)
        else
          match find_module_node s.registry mi with
          | none => (-ENOENT, s)
          | some _ =>
            (0, { s with registry := updateModule s.registry mi (fun n =>
                    { n with last_activity := now,
                             dispatchers := n.dispatchers.set ty fn }) })

/-- Conversion from `ocre_event_t` to `wasm_event_t` performed by
`ocre_post_event` (fields not populated by the switch stay zero). -/
def toWasmEvent (e : OcreEvent) : WasmEvent :=
  if e.etype = 0 then { etype := e.etype, id := e.timer_id, port := 0, state := 0 }
  else if e.etype = 1 then { etype := e.etype, id := e.pin_id, port := 0, state := e.gpio_state }
  else { etype := e.etype, id := e.sensor_id, port := e.channel, state := e.value }

/-- Model of `ocre_post_event`: validate, convert, then under the event mutex
fail with `-ENOMEM` if fewer than 16 bytes are free, otherwise append the
record and give the semaphore. -/
def ocre_post_event (s : CoreState) (ev? : Option OcreEvent) : Int × CoreState :=
  match ev? with
  | none => (-EINVAL, s)
  | some e =>
    if ¬ is_valid_event_type e.etype then (-EINVAL, s)
    else if ¬ s.initialized then (-ENODEV, s)
    else if ring_buf_space s.queue < EVENT_SIZE then (-ENOMEM, s)
    else (0, { s with queue := s.queue ++ [toWasmEvent e], sem := s.sem + 1 })

/-- Model of `ocre_get_event`.  Oracles: `instOfEnv` is
`wasm_runtime_get_module_inst` and `translate` is
`wasm_runtime_addr_app_to_native` for the module (`none` = failed
translation).  The third component lists the 32-bit stores performed into
guest memory as (native address, value) pairs. -/
def ocre_get_event (s : CoreState) (env : Nat) (instOfEnv : Nat → Nat)
    (translate : Nat → Option Nat) (type_offset id_offset port_offset state_offset : Nat) :
    Int × CoreState × List (Nat × Nat) :=
  if env = 0 then (-EINVAL, s, [])
  else if instOfEnv env = 0 then (-EINVAL, s, [])
  else
    match translate type_offset, translate id_offset,
          translate port_offset, translate state_offset with
    | some ta, some ia, some pa, some sa =>
      match s.queue with
      | [] => (-ENOENT, s, [])
      | e :: rest =>
        (0, { s with queue := rest }, [(ta, e.etype), (ia, e.id), (pa, e.port), (sa, e.state)])
    | _, _, _, _ => (-EINVAL, s, [])

/-- Model of `ocre_common_shutdown`: a no-op unless initialized; otherwise
stop the workers, wake them, clean up every registered module and clear the
initialized flag.  (The event ring contents are not cleared by the source.) -/
def ocre_common_shutdown (s : CoreState) : CoreState :=
  if ¬ s.initialized then s
  else
    { s with running := false, sem := s.sem + 2, registry := [],
             initialized := false }

/-- Model of `ocre_common_init`.  Oracle `threadCreate i` is the return of
`core_thread_create` for worker `i` (2 workers).  When already initialized it
returns 0 immediately without touching anything.  On a thread-creation
failure the source calls `ocre_common_shutdown` — which returns immediately
because `common_initialized` is still false — and returns the error. -/
def ocre_common_init (s : CoreState) (threadCreate : Nat → Int) : Int × CoreState :=
  if s.initialized then (0, s)
  else
    let s1 : CoreState :=
      { s with registry := [], queue := [], handlers := [0, 0, 0],
               sem := 0, running := true, threads := 0 }
    if threadCreate 0 ≠ 0 then (threadCreate 0, ocre_common_shutdown s1)
    else
      let s2 := { s1 with threads := 1 }
      if threadCreate 1 ≠ 0 then (threadCreate 1, ocre_common_shutdown s2)
      else (0, { s2 with threads := 2, initialized := true })

/- ======================================================================
   Concrete fixtures used by closed theorems and witnesses
   ====================================================================== -/

/-- The boot state: nothing initialized, everything empty. -/
def s_boot : CoreState :=
  { initialized := false, running := false, registry := [], queue := [],
    handlers := [0, 0, 0], sem := 0, threads := 0 }

/-- A state produced by a successful `ocre_common_init` (both worker threads
created successfully). -/
def s_ready : CoreState := (ocre_common_init s_boot (fun _ => 0)).2

/-- The guest export name used in the timer-delivery scenario. -/
def onTimerName : String := "on_timer"

/-- A producer-side timer event with the given timer id. -/
def mkTimerEvent (tid : Nat) : OcreEvent :=
  { etype := 0, timer_id := tid, pin_id := 0, gpio_state := 0,
    sensor_id := 0, channel := 0, value := 0 }

/- ======================================================================
   C10 — init after init is a no-op
   ====================================================================== -/

/-- C10: calling `ocre_common_init` when the core is already initialized
returns 0 immediately and changes nothing: the registry, queue, handler
table, semaphore and threads are exactly as they were. -/
theorem c10_init_after_init_noop (s : CoreState) (threadCreate : Nat → Int)
    (h : s.initialized = true) :
    ocre_common_init s threadCreate = (0, s) := by
  simp [ocre_common_init, h]

/-- Witness for C10 at the concrete initialized state `s_ready` with a
thread-creation oracle that would fail if it were consulted. -/
theorem c10_init_after_init_noop_witness :
    s_ready.initialized = true ∧
    ocre_common_init s_ready (fun _ => -1) = (0, s_ready) :=
  ⟨by decide, c10_init_after_init_noop s_ready (fun _ => -1) (by decide)⟩

/- ======================================================================
   C6 — register_module error paths
   ====================================================================== -/

/-- C6 counterexample: with the core initialized, allocation succeeding and
`wasm_runtime_create_exec_env` failing, `ocre_register_module` returns
`-ENOMEM` — the very same code returned on node-allocation failure and the
spec's OutOfMemory code — and not `-EFAULT`, the code this program uses for
guest-runtime failures (`process_single_event` after exhausted retries).  So
the claimed distinct RuntimeError result does not exist. -/
theorem c6_counterexample :
    (ocre_register_module s_ready 1 true 0 5).1 = -ENOMEM ∧
    (ocre_register_module s_ready 1 false 7 5).1 = -ENOMEM ∧
    (ocre_register_module s_ready 1 true 0 5).1 = (ocre_register_module s_ready 1 false 7 5).1 ∧
    (-ENOMEM : Int) ≠ -EFAULT := by
  decide

/-- C6 (amended): `ocre_register_module` returns Invalid (`-EINVAL`) on a
null handle, NotInitialized (`-ENODEV`) if the core has not been initialized,
OutOfMemory (`-ENOMEM`) if allocating the context node fails, and again
OutOfMemory (`-ENOMEM`) — not a distinct RuntimeError — if creation of the
guest execution environment fails; on the execution-environment failure path
the already-allocated node is freed and the whole state (in particular the
registry) is returned unchanged; on success the new context is appended. -/
theorem c6_register_module_errors (s : CoreState) (h : Nat) (allocOk : Bool)
    (newEnv now : Nat) :
    (h = 0 → ocre_register_module s h allocOk newEnv now = (-EINVAL, s)) ∧
    (h ≠ 0 → s.initialized = false →
      ocre_register_module s h allocOk newEnv now = (-ENODEV, s)) ∧
    (h ≠ 0 → s.initialized = true → allocOk = false →
      ocre_register_module s h allocOk newEnv now = (-ENOMEM, s)) ∧
    (h ≠ 0 → s.initialized = true → allocOk = true → newEnv = 0 →
      ocre_register_module s h allocOk newEnv now = (-ENOMEM, s)) ∧
    (h ≠ 0 → s.initialized = true → allocOk = true → newEnv ≠ 0 →
      ocre_register_module s h allocOk newEnv now =
        (0, { s with registry := s.registry ++
          [{ inst := h, exec_env := newEnv, in_use := true, last_activity := now,
             resource_count := [0, 0, 0], dispatchers := [0, 0, 0] }] })) := by
  refine ⟨?_, ?_, ?_, ?_, ?_⟩ <;> intros <;> simp_all [ocre_register_module]

/-- Witness for C6: the execution-environment-failure path at a concrete
input rolls the state back completely. -/
theorem c6_register_module_errors_witness :
    (1 : Nat) ≠ 0 ∧ s_ready.initialized = true ∧
    ocre_register_module s_ready 1 true 0 9 = (-ENOMEM, s_ready) :=
  ⟨by decide, by decide,
   (c6_register_module_errors s_ready 1 true 0 9).2.2.2.1 (by decide) (by decide) rfl rfl⟩

/- ======================================================================
   C9 — get_event
   ====================================================================== -/

/-- C9: `ocre_get_event` returns Invalid (`-EINVAL`) when the execution
environment is null, when the module instance is unavailable, or when any of
the four guest memory offsets fails address translation (queue untouched, no
writes); returns NotFound (`-ENOENT`) when no event is available; and
otherwise removes exactly one event from the queue, writes its type, id, port
and state as 32-bit values at the four translated addresses, and returns 0. -/
theorem c9_get_event_spec (s : CoreState) (env : Nat) (instOfEnv : Nat → Nat)
    (translate : Nat → Option Nat) (toff ioff poff soff : Nat) :
    (env = 0 →
      ocre_get_event s env instOfEnv translate toff ioff poff soff = (-EINVAL, s, [])) ∧
    (env ≠ 0 → instOfEnv env ≠ 0 →
      (translate toff = none ∨ translate ioff = none ∨ translate poff = none ∨
       translate soff = none) →
      ocre_get_event s env instOfEnv translate toff ioff poff soff = (-EINVAL, s, [])) ∧
    (∀ ta ia pa sa, env ≠ 0 → instOfEnv env ≠ 0 → s.queue = [] →
      translate toff = some ta → translate ioff = some ia → translate poff = some pa →
      translate soff = some sa →
      ocre_get_event s env instOfEnv translate toff ioff poff soff = (-ENOENT, s, [])) ∧
    (∀ e rest ta ia pa sa, env ≠ 0 → instOfEnv env ≠ 0 → s.queue = e :: rest →
      translate toff = some ta → translate ioff = some ia → translate poff = some pa →
      translate soff = some sa →
      ocre_get_event s env instOfEnv translate toff ioff poff soff =
        (0, { s with queue := rest },
         [(ta, e.etype), (ia, e.id), (pa, e.port), (sa, e.state)])) := by
  refine ⟨?_, ?_, ?_, ?_⟩ <;> intros <;>
    rcases ht : translate toff with _ | ta <;>
    rcases hi : translate ioff with _ | ia <;>
    rcases hp : translate poff with _ | pa <;>
    rcases hs : translate soff with _ | sa <;>
    simp_all [ocre_get_event]

/-- Witness for C9: popping one event at a concrete input. -/
theorem c9_get_event_spec_witness :
    (7 : Nat) ≠ 0 ∧
    ocre_get_event
      { s_ready with queue := [{ etype := 0, id := 7, port := 0, state := 0 }] }
      7 (fun e => if e = 7 then 1 else 0) (fun off => some (1000 + off)) 4 8 12 16 =
      (0, s_ready, [(1004, 0), (1008, 7), (1012, 0), (1016, 0)]) := by
  refine ⟨by decide, ?_⟩
  have h := (c9_get_event_spec
    { s_ready with queue := [{ etype := 0, id := 7, port := 0, state := 0 }] }
    7 (fun e => if e = 7 then 1 else 0) (fun off => some (1000 + off)) 4 8 12 16).2.2.2
    { etype := 0, id := 7, port := 0, state := 0 } [] 1004 1008 1012 1016
    (by decide) (by decide) rfl rfl rfl rfl rfl
  simpa using h

/- ======================================================================
   C7 — ambient current-module reference
   ====================================================================== -/

/-- Concrete timer `wasm_event_t` used by witnesses. -/
def evT : WasmEvent := { etype := 0, id := 7, port := 0, state := 0 }

/-- Concrete registered module context with a Timer dispatcher bound to
function handle 9, used by witnesses. -/
def nodeT : ModuleContext :=
  { inst := 1, exec_env := 7, in_use := true, last_activity := 100,
    resource_count := [0, 0, 0], dispatchers := [9, 0, 0] }

/-- Every guest invocation recorded by the retry loop carries the
current-module value, function handle and arguments it was started with. -/
theorem retry_loop_call_fields (outcomes : Nat → Bool) (curMod fn : Nat)
    (args : List Nat) :
    ∀ (fuel k t f : Nat) (a : List Nat),
      DAct.callFn t f a ∈ (retry_loop outcomes curMod fn args fuel k).2 →
      t = curMod ∧ f = fn ∧ a = args := by
  intro fuel
  induction fuel with
  | zero => intro k t f a hmem; simp [retry_loop] at hmem
  | succ n ih =>
    intro k t f a hmem
    by_cases hk : outcomes k
    · simp [retry_loop, hk] at hmem
      exact hmem
    · simp [retry_loop, hk] at hmem
      rcases hmem with ⟨h1, h2, h3⟩ | hrest
      · exact ⟨h1, h2, h3⟩
      · exact ih (k + 1) t f a hrest

/-- With an unset thread-local slot on entry, `process_single_event` leaves
the slot unset on every exit path. -/
theorem process_single_event_tls_none (ev? : Option WasmEvent)
    (node? : Option ModuleContext) (outcomes : Nat → Bool) (now : Nat) :
    (process_single_event ev? node? outcomes now none).2.2.1 = none := by
  rcases ev? with _ | ev <;> rcases node? with _ | node <;>
    simp [process_single_event] <;> split_ifs <;> simp

/-- A worker's per-event handling preserves an unset thread-local slot. -/
theorem worker_handle_event_tls_none (s : CoreState) (ev : WasmEvent)
    (outcomes : Nat → Bool) (now : Nat) :
    (worker_handle_event s none ev outcomes now).2.1 = none := by
  unfold worker_handle_event
  rcases hf : find_module_node s.registry (ocre_get_current_module none) with _ | node <;>
    simp [hf, process_single_event_tls_none]

/-- A worker's batch loop started with an unset thread-local slot finishes
with it unset. -/
theorem worker_run_batch_tls_none (outs : Nat → Nat → Bool) (now : Nat) :
    ∀ (batch : List WasmEvent) (i : Nat) (s : CoreState),
      (worker_run_batch outs now batch i s none).2.1 = none := by
  intro batch
  induction batch with
  | nil => intro i s; simp [worker_run_batch]
  | cons ev rest ih =>
    intro i s
    simp only [worker_run_batch]
    rw [worker_handle_event_tls_none s ev (outs i) now]
    exact ih (i + 1) (worker_handle_event s none ev (outs i) now).1

/-- C7: the per-worker ambient current-module reference is non-null only
while a dispatch invocation executes.  Concretely: (1) starting from an unset
slot, `process_single_event` leaves the slot unset on every exit path
(success, retry exhaustion and all validation exits alike); (2) every guest
call made during dispatch observes `ocre_get_current_module` equal to the
target module handle of the event being dispatched; (3) a worker batch loop
started with an unset slot finishes with it unset. -/
theorem c7_ambient_current_module :
    (∀ (ev? : Option WasmEvent) (node? : Option ModuleContext)
       (outcomes : Nat → Bool) (now : Nat),
      (process_single_event ev? node? outcomes now none).2.2.1 = none) ∧
    (∀ (ev : WasmEvent) (node : ModuleContext) (outcomes : Nat → Bool) (now : Nat)
       (tls : Option Nat) (t f : Nat) (args : List Nat),
      DAct.callFn t f args ∈
        (process_single_event (some ev) (some node) outcomes now tls).2.2.2 →
      t = node.inst) ∧
    (∀ (outs : Nat → Nat → Bool) (now : Nat) (batch : List WasmEvent) (i : Nat)
       (s : CoreState),
      (worker_run_batch outs now batch i s none).2.1 = none) := by
  refine ⟨process_single_event_tls_none, ?_, fun outs now batch i s =>
    worker_run_batch_tls_none outs now batch i s⟩
  intro ev node outcomes now tls t f args hmem
  simp only [process_single_event] at hmem
  split_ifs at hmem
  all_goals first
    | exact absurd hmem (List.not_mem_nil _)
    | exact (retry_loop_call_fields outcomes _ _ _ MAX_DISPATCH_RETRIES 0 t f args hmem).1

/-- Witness for C7: a concrete successful dispatch observes the target
handle during the call and clears the slot at exit. -/
theorem c7_ambient_current_module_witness :
    DAct.callFn 1 9 [7] ∈
      (process_single_event (some evT) (some nodeT) (fun _ => true) 300 none).2.2.2 ∧
    (1 : Nat) = nodeT.inst ∧
    (process_single_event (some evT) (some nodeT) (fun _ => true) 300 none).2.2.1 = none :=
  ⟨by decide,
   c7_ambient_current_module.2.1 evT nodeT (fun _ => true) 300 none 1 9 [7] (by decide),
   c7_ambient_current_module.1 (some evT) (some nodeT) (fun _ => true) 300⟩

/- ======================================================================
   C5 — dispatch retry semantics
   ====================================================================== -/

/-- A worker's per-event handling never touches the event queue: dispatch
failures are logged and dropped, never re-enqueued or surfaced. -/
theorem worker_handle_event_queue (s : CoreState) (tls : Option Nat) (ev : WasmEvent)
    (outcomes : Nat → Bool) (now : Nat) :
    (worker_handle_event s tls ev outcomes now).1.queue = s.queue := by
  unfold worker_handle_event
  rcases hf : find_module_node s.registry (ocre_get_current_module tls) with _ | node <;>
    simp [hf] <;>
    rcases (process_single_event (some ev) (some node) outcomes now tls).2.1 with _ | n' <;>
    simp

/-- A worker's batch loop never touches the event queue. -/
theorem worker_run_batch_queue (outs : Nat → Nat → Bool) (now : Nat) :
    ∀ (batch : List WasmEvent) (i : Nat) (s : CoreState) (tls : Option Nat),
      (worker_run_batch outs now batch i s tls).1.queue = s.queue := by
  intro batch
  induction batch with
  | nil => intro i s tls; simp [worker_run_batch]
  | cons ev rest ih =>
    intro i s tls
    simp only [worker_run_batch]
    rw [ih (i + 1) (worker_handle_event s tls ev (outs i) now).1
        (worker_handle_event s tls ev (outs i) now).2.1]
    exact worker_handle_event_queue s tls ev (outs i) now

/-- C5: with a bound dispatcher and a live execution environment, the guest
function is invoked at most `MAX_DISPATCH_RETRIES` = 3 times; it is invoked
exactly once (with result 0) when the first attempt succeeds; success on any
of the three attempts is terminal and yields 0; when all three attempts fail
the result is `-EFAULT`, exactly 3 invocations were made and the node is
unchanged; every failed attempt is followed by fetching the guest exception,
clearing it and a 1 ms sleep (clears = sleeps = number of failed attempts,
and every sleep in the trace is 1 ms); and a worker's batch loop never
modifies the event queue, so an event whose retries are exhausted is dropped
without being re-enqueued or surfacing an error to the poster. -/
theorem c5_dispatch_retry (ev : WasmEvent) (node : ModuleContext)
    (outcomes : Nat → Bool) (now : Nat) (tls : Option Nat)
    (hty : ev.etype < 3) (hdisp : node.dispatchers.getD ev.etype 0 ≠ 0)
    (henv : node.exec_env ≠ 0) :
    countCalls (process_single_event (some ev) (some node) outcomes now tls).2.2.2 ≤ 3 ∧
    (outcomes 0 = true →
      countCalls (process_single_event (some ev) (some node) outcomes now tls).2.2.2 = 1 ∧
      (process_single_event (some ev) (some node) outcomes now tls).1 = 0) ∧
    ((process_single_event (some ev) (some node) outcomes now tls).1 = 0 ↔
      (outcomes 0 = true ∨ outcomes 1 = true ∨ outcomes 2 = true)) ∧
    (outcomes 0 = false → outcomes 1 = false → outcomes 2 = false →
      (process_single_event (some ev) (some node) outcomes now tls).1 = -EFAULT ∧
      countCalls (process_single_event (some ev) (some node) outcomes now tls).2.2.2 = 3 ∧
      (process_single_event (some ev) (some node) outcomes now tls).2.1 = some node) ∧
    (countClears (process_single_event (some ev) (some node) outcomes now tls).2.2.2 =
       countSleeps (process_single_event (some ev) (some node) outcomes now tls).2.2.2 ∧
     countClears (process_single_event (some ev) (some node) outcomes now tls).2.2.2 =
       (if (process_single_event (some ev) (some node) outcomes now tls).1 = 0 then
          countCalls (process_single_event (some ev) (some node) outcomes now tls).2.2.2 - 1
        else 3)) ∧
    (∀ ms, DAct.sleepMs ms ∈
        (process_single_event (some ev) (some node) outcomes now tls).2.2.2 → ms = 1) ∧
    (∀ (outs : Nat → Nat → Bool) (now' : Nat) (batch : List WasmEvent) (i : Nat)
       (s : CoreState) (tls' : Option Nat),
      (worker_run_batch outs now' batch i s tls').1.queue = s.queue) := by
  have hvalid : is_valid_event_type ev.etype = true := by
    simp [is_valid_event_type, OCRE_RESOURCE_TYPE_COUNT]; omega
  cases h0 : outcomes 0 <;> cases h1 : outcomes 1 <;> cases h2 : outcomes 2 <;>
    refine ⟨?_, ?_, ?_, ?_, ⟨?_, ?_⟩, ?_, fun outs now' batch i s tls' =>
      worker_run_batch_queue outs now' batch i s tls'⟩ <;>
    simp_all [process_single_event, retry_loop, MAX_DISPATCH_RETRIES,
      countCalls, countClears, countSleeps, hvalid, hdisp, henv, EFAULT]

/-- Outcome oracle that fails the first attempt and succeeds on the second. -/
def failThenSucceed : Nat → Bool := fun k => k == 1

/-- Witness for C5 at a concrete event, node and fail-once oracle: two
invocations, one clear, one sleep, success. -/
theorem c5_dispatch_retry_witness :
    evT.etype < 3 ∧ nodeT.dispatchers.getD evT.etype 0 ≠ 0 ∧ nodeT.exec_env ≠ 0 ∧
    countCalls (process_single_event (some evT) (some nodeT) failThenSucceed 300 none).2.2.2 ≤ 3 ∧
    ((process_single_event (some evT) (some nodeT) failThenSucceed 300 none).1 = 0 ↔
      (failThenSucceed 0 = true ∨ failThenSucceed 1 = true ∨ failThenSucceed 2 = true)) :=
  ⟨by decide, by decide, by decide,
   (c5_dispatch_retry evT nodeT failThenSucceed 300 none (by decide) (by decide) (by decide)).1,
   (c5_dispatch_retry evT nodeT failThenSucceed 300 none (by decide) (by decide) (by decide)).2.2.1⟩

/- ======================================================================
   C1 — timer delivery scenario (worker target selection)
   ====================================================================== -/

/-- Function-name resolver for the timer scenario: the module exports
`on_timer` as function handle 9. -/
def c1_resolve : String → Nat := fun nm => if nm = onTimerName then 9 else 0

/-- Exec-env-to-module mapping for the timer scenario: exec env 7 belongs to
module 1. -/
def c1_instOfEnv : Nat → Nat := fun e => if e = 7 then 1 else 0

/-- State after `ocre_register_module` of module 1 at uptime 100 (exec env 7). -/
def c1_state_registered : CoreState := (ocre_register_module s_ready 1 true 7 100).2

/-- State after binding the Timer dispatcher to `on_timer` at uptime 200. -/
def c1_state_bound : CoreState :=
  (ocre_register_dispatcher c1_state_registered 7 c1_instOfEnv 0 (some onTimerName)
    c1_resolve 200).2

/-- State after posting the `{type:Timer, id:7}` event. -/
def c1_state_posted : CoreState := (ocre_post_event c1_state_bound (some (mkTimerEvent 7))).2

/-- Result of one worker iteration over the posted event (fresh worker
thread, thread-local slot unset, guest calls would all succeed) at uptime 300. -/
def c1_worker_result : CoreState × Option Nat × List DAct :=
  worker_iteration c1_state_posted none (fun _ _ => true) 300

/-- C1: the scenario of the claim, evaluated on the code.  Init, registration,
dispatcher binding and posting all succeed, the Timer dispatcher is bound and
the event is queued — but the worker selects its target by dereferencing the
thread-local current-module pointer, which is `NULL` outside a dispatch, so
`find_module_node` misses, the event is dropped, `on_timer` is invoked zero
times (not once) and module 1's `last_activity` stays at its binding-time
value 200 (not the dispatch uptime 300).  This contradicts the claim and the
spec's stated delivery contract; the spec itself flags this target-selection
path as a bug (§9). -/
theorem c1_timer_event_dropped :
    (ocre_register_module s_ready 1 true 7 100).1 = 0 ∧
    (ocre_register_dispatcher c1_state_registered 7 c1_instOfEnv 0 (some onTimerName)
      c1_resolve 200).1 = 0 ∧
    (ocre_post_event c1_state_bound (some (mkTimerEvent 7))).1 = 0 ∧
    (find_module_node c1_state_posted.registry 1).map (fun n => n.dispatchers) =
      some [9, 0, 0] ∧
    c1_state_posted.queue = [{ etype := 0, id := 7, port := 0, state := 0 }] ∧
    c1_worker_result.2.2 = [DAct.dropNoTarget] ∧
    countCalls c1_worker_result.2.2 = 0 ∧
    c1_worker_result.1.queue = [] ∧
    (find_module_node c1_worker_result.1.registry 1).map (fun n => n.last_activity) =
      some 200 := by
  decide

/- ======================================================================
   C8 — cleanup handler replacement and cleanup protocol
   ====================================================================== -/

/-- Cleanup over an explicit three-slot handler table unfolds to the
concatenation of the per-type invocations. -/
theorem cleanup_trace_explicit (s : CoreState) (x y z m : Nat)
    (hh : s.handlers = [x, y, z]) (hm : m ≠ 0) :
    ocre_cleanup_module_resources s m =
      (if x ≠ 0 then [(0, x, m)] else []) ++
      (if y ≠ 0 then [(1, y, m)] else []) ++
      (if z ≠ 0 then [(2, z, m)] else []) := by
  have hrange : List.range OCRE_RESOURCE_TYPE_COUNT = [0, 1, 2] := by decide
  simp only [ocre_cleanup_module_resources, if_neg hm, hrange, hh,
    List.filterMap_cons, List.filterMap_nil]
  split_ifs <;> simp_all [List.getD]

/-- A valid `ocre_register_cleanup_handler` stores the handler at the
type's slot of the table. -/
theorem register_cleanup_handlers_set (s : CoreState) (ty h : Nat)
    (hty : ty < 3) (hne : h ≠ 0) :
    (ocre_register_cleanup_handler s ty h).2.handlers = s.handlers.set ty h := by
  have hvalid : is_valid_event_type ty = true := by
    simp [is_valid_event_type, OCRE_RESOURCE_TYPE_COUNT]; omega
  simp [ocre_register_cleanup_handler, hvalid, hne]

/-- Every entry of an explicit cleanup trace carries the cleaned module, the
handler stored for its type, and a non-null handler. -/
theorem cleanup_explicit_members (x y z m i xx mm : Nat)
    (hmem : (i, xx, mm) ∈
      ((if x ≠ 0 then [(0, x, m)] else []) ++ (if y ≠ 0 then [(1, y, m)] else []) ++
       (if z ≠ 0 then [(2, z, m)] else []))) :
    mm = m ∧ xx = [x, y, z].getD i 0 ∧ xx ≠ 0 := by
  split_ifs at hmem <;>
    simp only [List.mem_append, List.mem_cons, List.not_mem_nil, or_false, false_or,
      Prod.mk.injEq] at hmem
  all_goals
    first
      | (rcases hmem with ⟨rfl, rfl, rfl⟩ | ⟨rfl, rfl, rfl⟩ | ⟨rfl, rfl, rfl⟩)
      | (rcases hmem with ⟨rfl, rfl, rfl⟩ | ⟨rfl, rfl, rfl⟩)
      | (rcases hmem with ⟨rfl, rfl, rfl⟩)
      | exact hmem.elim
  all_goals simp_all [List.getD]

/-- An explicit cleanup trace has exactly one entry for each type whose
handler is set and none for types whose handler is unset. -/
theorem cleanup_explicit_countP (x y z m : Nat) :
    ∀ i, i < 3 →
      (((if x ≠ 0 then [(0, x, m)] else []) ++ (if y ≠ 0 then [(1, y, m)] else []) ++
        (if z ≠ 0 then [(2, z, m)] else [])).countP
          (fun e : Nat × Nat × Nat => e.1 == i)) =
      (if [x, y, z].getD i 0 ≠ 0 then 1 else 0) := by
  intro i hi
  interval_cases i <;> split_ifs <;>
    simp_all [List.countP_cons, List.countP_nil, List.getD]

/-- C8: `register_cleanup_handler(t, f)` followed by
`register_cleanup_handler(t, g)` replaces the binding, so a subsequent module
cleanup calls only `g` for type `t`; cleanup iterates all resource types and
invokes each non-null registered handler exactly once with that module's
handle, treating unset types as no-ops. -/
theorem c8_cleanup_handler_replacement (s : CoreState) (a b c ty f g m : Nat)
    (hh : s.handlers = [a, b, c]) (hty : ty < 3) (hf : f ≠ 0) (hg : g ≠ 0)
    (hm : m ≠ 0) :
    ((ocre_register_cleanup_handler (ocre_register_cleanup_handler s ty f).2 ty g).2.handlers.getD
        ty 0 = g) ∧
    ((ty, g, m) ∈ ocre_cleanup_module_resources
        (ocre_register_cleanup_handler (ocre_register_cleanup_handler s ty f).2 ty g).2 m) ∧
    (∀ x, (ty, x, m) ∈ ocre_cleanup_module_resources
        (ocre_register_cleanup_handler (ocre_register_cleanup_handler s ty f).2 ty g).2 m →
        x = g) ∧
    (∀ i x mm, (i, x, mm) ∈ ocre_cleanup_module_resources
        (ocre_register_cleanup_handler (ocre_register_cleanup_handler s ty f).2 ty g).2 m →
        mm = m ∧
        x = (ocre_register_cleanup_handler (ocre_register_cleanup_handler s ty f).2 ty
              g).2.handlers.getD i 0 ∧ x ≠ 0) ∧
    (∀ i, i < 3 →
      (ocre_register_cleanup_handler (ocre_register_cleanup_handler s ty f).2 ty
        g).2.handlers.getD i 0 ≠ 0 →
      (ocre_cleanup_module_resources
        (ocre_register_cleanup_handler (ocre_register_cleanup_handler s ty f).2 ty g).2
        m).countP (fun e => e.1 == i) = 1) ∧
    (∀ i, i < 3 →
      (ocre_register_cleanup_handler (ocre_register_cleanup_handler s ty f).2 ty
        g).2.handlers.getD i 0 = 0 →
      (ocre_cleanup_module_resources
        (ocre_register_cleanup_handler (ocre_register_cleanup_handler s ty f).2 ty g).2
        m).countP (fun e => e.1 == i) = 0) := by
  have hset : (ocre_register_cleanup_handler (ocre_register_cleanup_handler s ty f).2 ty
      g).2.handlers = List.set [a, b, c] ty g := by
    rw [register_cleanup_handlers_set _ _ _ hty hg,
        register_cleanup_handlers_set _ _ _ hty hf, hh, List.set_set]
  have hty3 : ty = 0 ∨ ty = 1 ∨ ty = 2 := by omega
  rcases hty3 with rfl | rfl | rfl
  · have htr := cleanup_trace_explicit _ g b c m (by simpa using hset) hm
    simp only [htr, hset]
    refine ⟨rfl, by simp [hg], ?_, ?_, ?_, ?_⟩
    · intro x hx
      exact (cleanup_explicit_members g b c m 0 x m hx).2.1
    · intro i x mm hmem
      exact cleanup_explicit_members g b c m i x mm hmem
    · intro i hi h0
      rw [cleanup_explicit_countP g b c m i hi,
        if_pos (show [g, b, c].getD i 0 ≠ 0 from h0)]
    · intro i hi h0
      rw [cleanup_explicit_countP g b c m i hi,
        if_neg (show ¬ [g, b, c].getD i 0 ≠ 0 from fun hc => hc h0)]
  · have htr := cleanup_trace_explicit _ a g c m (by simpa using hset) hm
    simp only [htr, hset]
    refine ⟨rfl, by simp [hg], ?_, ?_, ?_, ?_⟩
    · intro x hx
      exact (cleanup_explicit_members a g c m 1 x m hx).2.1
    · intro i x mm hmem
      exact cleanup_explicit_members a g c m i x mm hmem
    · intro i hi h0
      rw [cleanup_explicit_countP a g c m i hi,
        if_pos (show [a, g, c].getD i 0 ≠ 0 from h0)]
    · intro i hi h0
      rw [cleanup_explicit_countP a g c m i hi,
        if_neg (show ¬ [a, g, c].getD i 0 ≠ 0 from fun hc => hc h0)]
  · have htr := cleanup_trace_explicit _ a b g m (by simpa using hset) hm
    simp only [htr, hset]
    refine ⟨rfl, by simp [hg], ?_, ?_, ?_, ?_⟩
    · intro x hx
      exact (cleanup_explicit_members a b g m 2 x m hx).2.1
    · intro i x mm hmem
      exact cleanup_explicit_members a b g m i x mm hmem
    · intro i hi h0
      rw [cleanup_explicit_countP a b g m i hi,
        if_pos (show [a, b, g].getD i 0 ≠ 0 from h0)]
    · intro i hi h0
      rw [cleanup_explicit_countP a b g m i hi,
        if_neg (show ¬ [a, b, g].getD i 0 ≠ 0 from fun hc => hc h0)]

/-- Witness for C8: replace the Timer handler 11 by 12, with a GPIO handler
13 set and the Sensor slot unset; cleanup of module 5 calls 12 and 13 once
each. -/
theorem c8_cleanup_handler_replacement_witness :
    s_ready.handlers = [0, 0, 0] ∧
    ((0, 12, 5) ∈ ocre_cleanup_module_resources
      (ocre_register_cleanup_handler (ocre_register_cleanup_handler s_ready 0 11).2 0 12).2 5) :=
  ⟨by decide,
   (c8_cleanup_handler_replacement s_ready 0 0 0 0 11 12 5 (by decide) (by decide)
     (by decide) (by decide) (by decide)).2.1⟩

/- ======================================================================
   C3 — resource counters
   ====================================================================== -/

/-- A resource-counter operation: one call to
`ocre_increment_resource_count` or `ocre_decrement_resource_count`. -/
inductive CountOp where
  | inc
  | dec
deriving DecidableEq, Repr

/-- Is the operation an increment? -/
def CountOp.isInc : CountOp → Bool
  | .inc => true
  | .dec => false

/-- Is the operation a decrement? -/
def CountOp.isDec : CountOp → Bool
  | .inc => false
  | .dec => true

/-- Apply one counter operation for `(h, ty)` to the state. -/
def applyCountOp (h ty : Nat) (s : CoreState) : CountOp → CoreState
  | .inc => ocre_increment_resource_count s h ty
  | .dec => ocre_decrement_resource_count s h ty

/-- Run a sequence of counter operations for `(h, ty)`. -/
def runCountOps (h ty : Nat) : List CountOp → CoreState → CoreState
  | [], s => s
  | op :: rest, s => runCountOps h ty rest (applyCountOp h ty s op)

/-- Number of increments in a sequence. -/
def numIncs (ops : List CountOp) : Nat := ops.countP CountOp.isInc

/-- Number of decrements in a sequence. -/
def numDecs (ops : List CountOp) : Nat := ops.countP CountOp.isDec

/-- The effect of one operation on the counter cell, exactly as the source
computes it: a `uint32_t` increment (wrap modulo `2^32`) and a decrement
guarded by `count > 0` (which on `Nat` is truncated subtraction). -/
def satStep (c : Nat) : CountOp → Nat
  | .inc => (c + 1) % UINT32_MOD
  | .dec => c - 1

/-- Finding through an `updateModule` whose function preserves the handle
yields the mapped node. -/
theorem find_updateModule (reg : List ModuleContext) (h : Nat)
    (f : ModuleContext → ModuleContext) (hf : ∀ n, (f n).inst = n.inst) :
    find_module_node (updateModule reg h f) h = (find_module_node reg h).map f := by
  induction reg with
  | nil => simp [find_module_node, updateModule]
  | cons n rest ih =>
    by_cases hn : n.inst = h
    · simp [find_module_node, updateModule, hn, List.find?_cons, hf]
    · simp only [find_module_node, updateModule, if_neg hn] at ih ⊢
      rw [List.find?_cons, List.find?_cons]
      have hbeq : (n.inst == h) = false := by simp [hn]
      simp [hbeq, ih]

/-- `getD` after `set` at the same in-range index gives the new value. -/
theorem getD_set_self : ∀ (l : List Nat) (i v : Nat), i < l.length →
    (l.set i v).getD i 0 = v := by
  intro l
  induction l with
  | nil => intro i v hlt; simp at hlt
  | cons a rest ih =>
    intro i v hlt
    cases i with
    | zero => rfl
    | succ j =>
      simp only [List.set, List.getD_cons_succ]
      exact ih j v (by simpa using hlt)

/-- Setting an in-range index to the value it already holds is a no-op. -/
theorem set_getD_self : ∀ (l : List Nat) (i v : Nat), i < l.length →
    l.getD i 0 = v → l.set i v = l := by
  intro l
  induction l with
  | nil => intro i v hlt; simp at hlt
  | cons a rest ih =>
    intro i v hlt hval
    cases i with
    | zero => simp_all [List.getD]
    | succ j =>
      simp only [List.set]
      rw [ih j v (by simpa using hlt) (by simpa [List.getD_cons_succ] using hval)]

/-- One increment, observed at the found node. -/
theorem increment_found (s : CoreState) (h ty : Nat) (n : ModuleContext)
    (hh : h ≠ 0) (hty : ty < 3)
    (hfind : find_module_node s.registry h = some n) :
    find_module_node (ocre_increment_resource_count s h ty).registry h =
      some { n with resource_count :=
        n.resource_count.set ty ((n.resource_count.getD ty 0 + 1) % UINT32_MOD) } := by
  have hvalid : is_valid_event_type ty = true := by
    simp [is_valid_event_type, OCRE_RESOURCE_TYPE_COUNT]; omega
  unfold ocre_increment_resource_count
  rw [if_neg (by simp [hvalid, hh]), hfind]
  simp only []
  rw [find_updateModule s.registry h
      (fun n => { n with resource_count :=
        n.resource_count.set ty ((n.resource_count.getD ty 0 + 1) % UINT32_MOD) })
      (fun n' => rfl), hfind]
  rfl

/-- One decrement, observed at the found node; saturation at zero is absorbed
by truncated subtraction together with `set_getD_self`. -/
theorem decrement_found (s : CoreState) (h ty : Nat) (n : ModuleContext)
    (hh : h ≠ 0) (hty : ty < 3) (hlen : ty < n.resource_count.length)
    (hfind : find_module_node s.registry h = some n) :
    find_module_node (ocre_decrement_resource_count s h ty).registry h =
      some { n with resource_count :=
        n.resource_count.set ty (n.resource_count.getD ty 0 - 1) } := by
  have hvalid : is_valid_event_type ty = true := by
    simp [is_valid_event_type, OCRE_RESOURCE_TYPE_COUNT]; omega
  unfold ocre_decrement_resource_count
  rw [if_neg (by simp [hvalid, hh]), hfind]
  simp only []
  rw [find_updateModule s.registry h
      (fun n => if n.resource_count.getD ty 0 > 0 then
        { n with resource_count :=
            n.resource_count.set ty (n.resource_count.getD ty 0 - 1) }
        else n)
      (fun n' => by dsimp only; split <;> rfl), hfind]
  simp only [Option.map_some']
  by_cases hpos : n.resource_count.getD ty 0 > 0
  · rw [if_pos hpos]
  · have hz : n.resource_count.getD ty 0 = 0 := by omega
    rw [if_neg hpos, hz, Nat.zero_sub]
    rw [set_getD_self n.resource_count ty 0 hlen hz]

/-- Running a counter-operation sequence folds `satStep` over the cell of the
found node and touches nothing else of that node. -/
theorem runCountOps_cell (h ty : Nat) (hh : h ≠ 0) (hty : ty < 3) :
    ∀ (ops : List CountOp) (s : CoreState) (n : ModuleContext),
      find_module_node s.registry h = some n → ty < n.resource_count.length →
      find_module_node (runCountOps h ty ops s).registry h =
        some { n with resource_count :=
          n.resource_count.set ty (ops.foldl satStep (n.resource_count.getD ty 0)) } := by
  intro ops
  induction ops with
  | nil =>
    intro s n hfind hlen
    simp only [runCountOps, List.foldl]
    rw [set_getD_self n.resource_count ty _ hlen rfl]
    exact hfind
  | cons op rest ih =>
    intro s n hfind hlen
    cases op with
    | inc =>
      have h1 := increment_found s h ty n hh hty hfind
      have h2 := ih (ocre_increment_resource_count s h ty)
        { n with resource_count :=
          n.resource_count.set ty ((n.resource_count.getD ty 0 + 1) % UINT32_MOD) }
        h1 (by simpa using hlen)
      simp only [runCountOps, applyCountOp]
      rw [h2]
      simp only [List.foldl]
      rw [getD_set_self _ _ _ hlen, List.set_set]
      rfl
    | dec =>
      have h1 := decrement_found s h ty n hh hty hlen hfind
      have h2 := ih (ocre_decrement_resource_count s h ty)
        { n with resource_count :=
          n.resource_count.set ty (n.resource_count.getD ty 0 - 1) }
        h1 (by simpa using hlen)
      simp only [runCountOps, applyCountOp]
      rw [h2]
      simp only [List.foldl]
      rw [getD_set_self _ _ _ hlen, List.set_set]
      rfl

/-- Folding `satStep` over a sequence in which no prefix has more decrements
than `c` plus its increments, with no `uint32` wrap, computes the exact
running difference. -/
theorem foldl_satStep_no_saturation :
    ∀ (ops : List CountOp) (c : Nat),
      (∀ k, numDecs (ops.take k) ≤ c + numIncs (ops.take k)) →
      c + numIncs ops < UINT32_MOD →
      ops.foldl satStep c = c + numIncs ops - numDecs ops ∧
      numDecs ops ≤ c + numIncs ops := by
  intro ops
  induction ops with
  | nil =>
    intro c hpre hb
    simp [numIncs, numDecs]
  | cons op rest ih =>
    intro c hpre hb
    cases op with
    | inc =>
      have hinc : numIncs (CountOp.inc :: rest) = numIncs rest + 1 := by
        simp [numIncs, List.countP_cons, CountOp.isInc]
      have hdec : numDecs (CountOp.inc :: rest) = numDecs rest := by
        simp [numDecs, List.countP_cons, CountOp.isDec]
      have hc1 : c + 1 < UINT32_MOD := by rw [hinc] at hb; omega
      have hstep : satStep c CountOp.inc = c + 1 := by
        simp [satStep, Nat.mod_eq_of_lt hc1]
      have hpre' : ∀ k, numDecs (rest.take k) ≤ (c + 1) + numIncs (rest.take k) := by
        intro k
        have hk := hpre (k + 1)
        rw [List.take_succ_cons] at hk
        simp [numIncs, numDecs, List.countP_cons, CountOp.isInc, CountOp.isDec] at hk
        simp only [numIncs, numDecs]
        omega
      have hb' : (c + 1) + numIncs rest < UINT32_MOD := by rw [hinc] at hb; omega
      have ihres := ih (c + 1) hpre' hb'
      constructor
      · simp only [List.foldl, hstep]
        rw [ihres.1, hinc, hdec]
        omega
      · rw [hinc, hdec]
        have := ihres.2
        omega
    | dec =>
      have hinc : numIncs (CountOp.dec :: rest) = numIncs rest := by
        simp [numIncs, List.countP_cons, CountOp.isInc]
      have hdec : numDecs (CountOp.dec :: rest) = numDecs rest + 1 := by
        simp [numDecs, List.countP_cons, CountOp.isDec]
      have hc1 : 1 ≤ c := by
        have hk := hpre 1
        rw [List.take_succ_cons] at hk
        simp [numIncs, numDecs, List.countP_cons, CountOp.isInc, CountOp.isDec,
          List.take_nil] at hk
        omega
      have hstep : satStep c CountOp.dec = c - 1 := rfl
      have hpre' : ∀ k, numDecs (rest.take k) ≤ (c - 1) + numIncs (rest.take k) := by
        intro k
        have hk := hpre (k + 1)
        rw [List.take_succ_cons] at hk
        simp [numIncs, numDecs, List.countP_cons, CountOp.isInc, CountOp.isDec] at hk
        simp only [numIncs, numDecs]
        omega
      have hb' : (c - 1) + numIncs rest < UINT32_MOD := by rw [hinc] at hb; omega
      have ihres := ih (c - 1) hpre' hb'
      constructor
      · simp only [List.foldl, hstep]
        rw [ihres.1, hinc, hdec]
        have := ihres.2
        omega
      · rw [hinc, hdec]
        have := ihres.2
        omega

/-- C3 (amended): for a registered module and valid type starting at counter
zero, after a sequence of counter calls in which every prefix has at least as
many increments as decrements (so the saturating decrement never fires on a
zero counter) and fewer than `2^32` increments, the counter equals increments
minus decrements, which equals `max(0, increments − decrements)`.  (Without
the prefix condition the formula fails: see the counterexample.) -/
theorem c3_resource_counter_amended (s : CoreState) (h ty : Nat)
    (n : ModuleContext) (ops : List CountOp)
    (hh : h ≠ 0) (hty : ty < 3)
    (hfind : find_module_node s.registry h = some n)
    (hlen : ty < n.resource_count.length)
    (hzero : n.resource_count.getD ty 0 = 0)
    (hpre : ∀ k, numDecs (ops.take k) ≤ numIncs (ops.take k))
    (hbound : numIncs ops < UINT32_MOD) :
    ∃ n', find_module_node (runCountOps h ty ops s).registry h = some n' ∧
      n'.resource_count.getD ty 0 = numIncs ops - numDecs ops ∧
      ((n'.resource_count.getD ty 0 : Int) =
        max 0 ((numIncs ops : Int) - (numDecs ops : Int))) := by
  have hcell := runCountOps_cell h ty hh hty ops s n hfind hlen
  rw [hzero] at hcell
  have hfold := foldl_satStep_no_saturation ops 0
    (by intro k; simpa using hpre k) (by simpa using hbound)
  have hval : ({ n with resource_count :=
      n.resource_count.set ty (ops.foldl satStep 0) } : ModuleContext).resource_count.getD
        ty 0 = numIncs ops - numDecs ops := by
    simp only []
    rw [getD_set_self _ _ _ hlen, hfold.1]
    omega
  refine ⟨_, hcell, hval, ?_⟩
  rw [hval]
  have hle : numDecs ops ≤ numIncs ops := by simpa using hfold.2
  push_cast [Nat.cast_sub hle]
  omega

/-- Registered-module state used by the counter counterexample and witness:
module 1 registered with all counters zero. -/
def s_counter : CoreState := (ocre_register_module s_ready 1 true 7 0).2

/-- C3 counterexample: the sequence decrement-then-increment on a fresh
counter has one increment and one decrement, so the claimed formula
`max(0, increments − decrements)` gives 0 — but the code's counter is 1,
because the decrement saturated at zero and the increment then raised the
counter.  The claim as stated is false. -/
theorem c3_counterexample :
    numIncs [CountOp.dec, CountOp.inc] = 1 ∧
    numDecs [CountOp.dec, CountOp.inc] = 1 ∧
    (ocre_get_resource_count
      (runCountOps 1 0 [CountOp.dec, CountOp.inc] s_counter) 1 0 50).1 = 1 ∧
    ((1 : Int) ≠ max 0 ((1 : Int) - (1 : Int))) := by
  decide

/-- Witness for C3 (amended) at the concrete sequence inc, inc, dec. -/
theorem c3_resource_counter_amended_witness :
    find_module_node s_counter.registry 1 =
      some { inst := 1, exec_env := 7, in_use := true, last_activity := 0,
             resource_count := [0, 0, 0], dispatchers := [0, 0, 0] } ∧
    (∃ n', find_module_node
        (runCountOps 1 0 [CountOp.inc, CountOp.inc, CountOp.dec] s_counter).registry 1 =
          some n' ∧
      n'.resource_count.getD 0 0 =
        numIncs [CountOp.inc, CountOp.inc, CountOp.dec] -
        numDecs [CountOp.inc, CountOp.inc, CountOp.dec] ∧
      ((n'.resource_count.getD 0 0 : Int) =
        max 0 ((numIncs [CountOp.inc, CountOp.inc, CountOp.dec] : Int) -
               (numDecs [CountOp.inc, CountOp.inc, CountOp.dec] : Int)))) :=
  ⟨by decide,
   c3_resource_counter_amended s_counter 1 0
     { inst := 1, exec_env := 7, in_use := true, last_activity := 0,
       resource_count := [0, 0, 0], dispatchers := [0, 0, 0] }
     [CountOp.inc, CountOp.inc, CountOp.dec]
     (by decide) (by decide) (by decide) (by decide) (by decide)
     (by
       intro k
       rcases k with _ | _ | _ | k <;>
         simp [numIncs, numDecs, List.take_succ_cons, List.take_nil, List.countP_cons,
           List.countP_nil, CountOp.isInc, CountOp.isDec])
     (by decide)⟩

/- ======================================================================
   C2 — registry duplicate registration
   ====================================================================== -/

/-- Is a handle currently in the registry? -/
def registered (s : CoreState) (h : Nat) : Bool := (find_module_node s.registry h).isSome

/-- A registry-lifecycle operation: one call to `ocre_register_module` (with
its allocator/exec-env/clock oracles) or `ocre_unregister_module`. -/
inductive RegOp where
  | reg (h : Nat) (allocOk : Bool) (env now : Nat)
  | unreg (h : Nat)
deriving DecidableEq, Repr

/-- Apply one registry-lifecycle operation. -/
def applyRegOp (s : CoreState) : RegOp → CoreState
  | .reg h a e n => (ocre_register_module s h a e n).2
  | .unreg h => ocre_unregister_module s h

/-- Run a sequence of registry-lifecycle operations. -/
def runRegOps : List RegOp → CoreState → CoreState
  | [], s => s
  | op :: rest, s => runRegOps rest (applyRegOp s op)

/-- The sequence never registers a handle that is currently registered. -/
def freshRegs : List RegOp → CoreState → Bool
  | [], _ => true
  | RegOp.reg h a e n :: rest, s =>
    !(registered s h) && freshRegs rest (ocre_register_module s h a e n).2
  | RegOp.unreg h :: rest, s => freshRegs rest (ocre_unregister_module s h)

/-- The at-most-once registry invariant: no module handle occurs twice. -/
def nodupHandles (s : CoreState) : Prop := (s.registry.map (fun n => n.inst)).Nodup

/-- `removeFirstModule` removes at most one node: the result is a sublist. -/
theorem removeFirstModule_sublist (h : Nat) :
    ∀ (reg : List ModuleContext), List.Sublist (removeFirstModule reg h) reg := by
  intro reg
  induction reg with
  | nil => simp [removeFirstModule]
  | cons n rest ih =>
    unfold removeFirstModule
    by_cases hn : n.inst = h
    · simp only [if_pos hn]
      exact List.sublist_cons_self n rest
    · simp only [if_neg hn]
      exact List.Sublist.cons₂ n ih

/-- Registering a handle that is not currently registered preserves the
at-most-once invariant (every guard-failure path leaves the state unchanged;
the success path appends a node with a fresh handle). -/
theorem register_preserves_nodup (s : CoreState) (h : Nat) (a : Bool) (e now : Nat)
    (hnd : nodupHandles s) (hfresh : registered s h = false) :
    nodupHandles (ocre_register_module s h a e now).2 := by
  unfold ocre_register_module
  split_ifs <;> try exact hnd
  have hnot : h ∉ s.registry.map (fun n => n.inst) := by
    intro hmem
    rcases List.mem_map.mp hmem with ⟨n, hn, hinst⟩
    have hsome : (find_module_node s.registry h).isSome = true := by
      unfold find_module_node
      rcases ho : s.registry.find? (fun n => n.inst == h) with _ | v
      · exfalso
        have hall := List.find?_eq_none.mp ho n hn
        simp [hinst] at hall
      · simp [ho]
    simp [registered, hsome] at hfresh
  unfold nodupHandles
  simp only [List.map_append, List.map_cons, List.map_nil]
  rw [List.nodup_append]
  exact ⟨hnd, List.nodup_singleton h, by simpa [List.disjoint_singleton] using hnot⟩

/-- Unregistering preserves the at-most-once invariant. -/
theorem unregister_preserves_nodup (s : CoreState) (h : Nat)
    (hnd : nodupHandles s) : nodupHandles (ocre_unregister_module s h) := by
  unfold ocre_unregister_module
  split_ifs
  · exact hnd
  rcases hf : find_module_node s.registry h with _ | n
  · simpa [hf] using hnd
  · simp only [hf]
    unfold nodupHandles
    exact ((removeFirstModule_sublist h s.registry).map _).nodup hnd

/-- C2 (amended): the at-most-once registry invariant is preserved by every
sequence of `register_module`/`unregister_module` calls that never registers
a currently-registered handle.  (The code itself performs no duplicate check:
registering an already-registered handle returns 0 and appends a second
entry — see the counterexample — so the invariant requires this freshness
discipline from the callers.) -/
theorem c2_registry_at_most_once_amended :
    ∀ (ops : List RegOp) (s : CoreState),
      nodupHandles s → freshRegs ops s = true → nodupHandles (runRegOps ops s) := by
  intro ops
  induction ops with
  | nil => intro s hnd _; exact hnd
  | cons op rest ih =>
    intro s hnd hfresh
    cases op with
    | reg h a e now =>
      simp only [freshRegs, Bool.and_eq_true, Bool.not_eq_true'] at hfresh
      exact ih _ (register_preserves_nodup s h a e now hnd hfresh.1) hfresh.2
    | unreg h =>
      simp only [freshRegs] at hfresh
      exact ih _ (unregister_preserves_nodup s h hnd) hfresh

/-- State with module 1 registered, used by the duplicate-registration
counterexample. -/
def c2_s1 : CoreState := (ocre_register_module s_ready 1 true 5 0).2

/-- C2 counterexample: registering handle 1 when it is already registered
neither fails with an AlreadyExists-style error (it returns 0) nor is
idempotent (the state changes), and it creates a second registry entry for
the same handle, violating the at-most-once property. -/
theorem c2_counterexample :
    (ocre_register_module c2_s1 1 true 6 0).1 = 0 ∧
    (ocre_register_module c2_s1 1 true 6 0).2.registry.map (fun n => n.inst) = [1, 1] ∧
    ¬ nodupHandles (ocre_register_module c2_s1 1 true 6 0).2 ∧
    (ocre_register_module c2_s1 1 true 6 0).2 ≠ c2_s1 := by
  refine ⟨by decide, by decide, ?_, by decide⟩
  intro hcontra
  simp [nodupHandles, show (ocre_register_module c2_s1 1 true 6 0).2.registry.map
    (fun n => n.inst) = [1, 1] by decide] at hcontra

/-- Witness for C2 (amended): a concrete fresh sequence — register 1,
unregister 1, register 1 again, register 2 — keeps the invariant. -/
theorem c2_registry_at_most_once_amended_witness :
    nodupHandles s_ready ∧
    freshRegs [RegOp.reg 1 true 5 0, RegOp.unreg 1, RegOp.reg 1 true 6 1,
      RegOp.reg 2 true 7 2] s_ready = true ∧
    nodupHandles (runRegOps [RegOp.reg 1 true 5 0, RegOp.unreg 1, RegOp.reg 1 true 6 1,
      RegOp.reg 2 true 7 2] s_ready) :=
  ⟨by simp [nodupHandles, s_ready, s_boot, ocre_common_init], by decide,
   c2_registry_at_most_once_amended _ s_ready
     (by simp [nodupHandles, s_ready, s_boot, ocre_common_init]) (by decide)⟩

/- ======================================================================
   C4 — queue capacity and backpressure
   ====================================================================== -/

/-- Post a sequence of events, collecting the per-post results. -/
def postMany : List OcreEvent → CoreState → List Int × CoreState
  | [], s => ([], s)
  | e :: rest, s =>
    let r := ocre_post_event s (some e)
    let r2 := postMany rest r.2
    (r.1 :: r2.1, r2.2)

/-- A valid post into a non-full queue succeeds and appends the converted
record. -/
theorem post_event_ok (s : CoreState) (e : OcreEvent) (hi : s.initialized = true)
    (hv : e.etype < 3) (hlen : s.queue.length < 64) :
    ocre_post_event s (some e) =
      (0, { s with queue := s.queue ++ [toWasmEvent e], sem := s.sem + 1 }) := by
  have hvalid : is_valid_event_type e.etype = true := by
    simp [is_valid_event_type, OCRE_RESOURCE_TYPE_COUNT]; omega
  have hspace : ¬ ring_buf_space s.queue < EVENT_SIZE := by
    simp [ring_buf_space, EVENT_BUFFER_SIZE, EVENT_SIZE]
    omega
  simp [ocre_post_event, hvalid, hi, hspace]

/-- A valid post into a full queue fails with `-ENOMEM` and leaves the state
unchanged. -/
theorem post_event_full (s : CoreState) (e : OcreEvent) (hi : s.initialized = true)
    (hv : e.etype < 3) (hlen : 64 ≤ s.queue.length) :
    ocre_post_event s (some e) = (-ENOMEM, s) := by
  have hvalid : is_valid_event_type e.etype = true := by
    simp [is_valid_event_type, OCRE_RESOURCE_TYPE_COUNT]; omega
  have hspace : ring_buf_space s.queue < EVENT_SIZE := by
    simp only [ring_buf_space, EVENT_BUFFER_SIZE, EVENT_SIZE]
    omega
  simp [ocre_post_event, hvalid, hi, hspace]

/-- Pointwise-equal functions map lists equally. -/
theorem list_map_congr {α β : Type} (f g : α → β) :
    ∀ (l : List α), (∀ a ∈ l, f a = g a) → l.map f = l.map g := by
  intro l
  induction l with
  | nil => intro _; rfl
  | cons a rest ih =>
    intro h
    simp only [List.map_cons]
    rw [h a (by simp), ih (fun a' ha' => h a' (by simp [ha']))]

/-- Posting a list of valid events into an initialized core appends exactly
the records that fit (16 bytes each into the 1024-byte ring) and returns 0
for each accepted event and `-ENOMEM` for each rejected one. -/
theorem postMany_spec :
    ∀ (es : List OcreEvent) (s : CoreState),
      s.initialized = true → (∀ e ∈ es, e.etype < 3) → s.queue.length ≤ 64 →
      (postMany es s).2.queue =
        s.queue ++ (es.take (64 - s.queue.length)).map toWasmEvent ∧
      (postMany es s).1 = (List.range es.length).map
        (fun i => if s.queue.length + i < 64 then (0 : Int) else -ENOMEM) ∧
      (postMany es s).2.initialized = true := by
  intro es
  induction es with
  | nil =>
    intro s hi _ _
    simp [postMany, hi]
  | cons e rest ih =>
    intro s hi hv hlen
    have hve : e.etype < 3 := hv e (by simp)
    have hvr : ∀ e' ∈ rest, e'.etype < 3 := fun e' he' => hv e' (by simp [he'])
    by_cases hlt : s.queue.length < 64
    · have hok := post_event_ok s e hi hve hlt
      have ihres := ih { s with queue := s.queue ++ [toWasmEvent e], sem := s.sem + 1 } hi hvr (by simp; omega)
      simp only [postMany, hok]
      refine ⟨?_, ?_, ihres.2.2⟩
      · rw [ihres.1]
        have htake : 64 - s.queue.length = (64 - (s.queue.length + 1)) + 1 := by omega
        rw [htake, List.take_succ_cons, List.map_cons]
        simp [List.append_assoc]
      · rw [ihres.2.1]
        have hr : List.range (rest.length + 1) = 0 :: (List.range rest.length).map Nat.succ :=
          List.range_succ_eq_map rest.length
        simp only [List.length_cons, hr, List.map_cons, List.map_map]
        rw [if_pos (by omega)]
        refine congrArg (fun l => (0 : Int) :: l) ?_
        simp only [List.length_append, List.length_cons, List.length_nil]
        exact list_map_congr _ _ _ (fun i _ => by
          simp only [Function.comp]
          exact if_congr (by omega) rfl rfl)
    · have h64 : s.queue.length = 64 := by omega
      have hfull := post_event_full s e hi hve (by omega)
      have ihres := ih s hi hvr hlen
      simp only [postMany, hfull]
      refine ⟨?_, ?_, ihres.2.2⟩
      · rw [ihres.1, h64]
        simp
      · rw [ihres.2.1]
        have hr : List.range (rest.length + 1) = 0 :: (List.range rest.length).map Nat.succ :=
          List.range_succ_eq_map rest.length
        simp only [List.length_cons, hr, List.map_cons, List.map_map]
        rw [if_neg (by omega)]
        refine congrArg (fun l => (-ENOMEM : Int) :: l) ?_
        exact list_map_congr _ _ _ (fun i _ => by
          simp only [Function.comp]
          exact if_congr (by omega) rfl rfl)

/-- C4: starting from an empty queue with no workers draining, posting N
valid events enqueues exactly `min(N, ⌊Q/R⌋) = min(N, 64)` of them (with
`Q = 1024` bytes and `R = 16` bytes): the final queue holds precisely the
first 64 events in order, each post up to the 64th returns 0, every post
beyond that (the 65th onward) returns `-ENOMEM` (Full), and a full-queue post
leaves the state entirely unchanged. -/
theorem c4_queue_capacity (s : CoreState) (es : List OcreEvent)
    (hi : s.initialized = true) (hq : s.queue = [])
    (hv : ∀ e ∈ es, e.etype < 3) :
    (postMany es s).2.queue.length = min es.length 64 ∧
    (postMany es s).2.queue = (es.take 64).map toWasmEvent ∧
    (postMany es s).1 = (List.range es.length).map
      (fun i => if i < 64 then (0 : Int) else -ENOMEM) ∧
    (∀ (s' : CoreState) (e' : OcreEvent), s'.initialized = true → e'.etype < 3 →
      64 ≤ s'.queue.length → ocre_post_event s' (some e') = (-ENOMEM, s')) := by
  have hspec := postMany_spec es s hi hv (by simp [hq])
  have hqueue : (postMany es s).2.queue = (es.take 64).map toWasmEvent := by
    rw [hspec.1, hq]
    simp
  refine ⟨?_, hqueue, ?_, fun s' e' => post_event_full s' e'⟩
  · rw [hqueue]
    simp [List.length_take, Nat.min_comm]
  · rw [hspec.2.1, hq]
    simp

/-- 65 timer events for the queue-full witness. -/
def es65 : List OcreEvent := List.replicate 65 (mkTimerEvent 3)

/-- Witness for C4: posting 65 valid events into the fresh core leaves
exactly `min(65, 64) = 64` of them queued. -/
theorem c4_queue_capacity_witness :
    s_ready.initialized = true ∧ s_ready.queue = [] ∧
    (postMany es65 s_ready).2.queue.length = min es65.length 64 :=
  ⟨by decide, by decide,
   (c4_queue_capacity s_ready es65 (by decide) (by decide) (by decide)).1⟩
